import Mathlib

/-!
Verification development for the `create-tigra` repository: a shallow
embedding of the scaffolding CLI, the Fastify route tables of the generated
server template (auth / resources / admin), the swagger-schema cache, and
the authentication core (credential validation, refresh-token rotation,
RBAC guard chains, rate limiting).  Components whose implementation files
are not part of the template sources shipped in this repository snapshot
(controllers, token store, RBAC middleware, rate-limit plugin) are modelled
from the specification; each such definition is marked
`Modelled from the spec:` in its doc comment.
-/

namespace CreateTigra

/-! ## Swagger schema cache (`src/template/server/src/app.ts`, `toJsonSchema` / `getDefinition`)

The cache is a module-level `Map<string, any>` keyed by schema *name*; the
external `zodToJsonSchema` conversion and the `definitions` lookup of the
produced JSON schema are abstracted as function parameters `conv` and
`defs`. -/

/-- Lookup in the schema cache, an association list keyed by name
(embeds `schemaCache.has` / `schemaCache.get`). -/
def cacheGet {J : Type} (cache : List (String × J)) (name : String) : Option J :=
  (cache.find? (fun p => p.1 = name)).map (·.2)

/-- Embeds `toJsonSchema(schema, name)` from `app.ts`: return the cached
entry for `name` if present, otherwise convert `schema`, cache the result
under `name`, and return it.  The conversion `zodToJsonSchema` is an
external library call, abstracted as the parameter `conv`. -/
def toJsonSchema {Z J : Type} (conv : Z → String → J)
    (cache : List (String × J)) (schema : Z) (name : String) : J × List (String × J) :=
  match cacheGet cache name with
  | some j => (j, cache)
  | none =>
    let j := conv schema name
    (j, (name, j) :: cache)

/-- Embeds `getDefinition(schema, name)` from `app.ts`: convert via
`toJsonSchema`, then return `converted.definitions?.[name] || converted`.
The `definitions` projection of the opaque JSON value is abstracted as the
parameter `defs`. -/
def getDefinition {Z J : Type} (conv : Z → String → J) (defs : J → String → Option J)
    (cache : List (String × J)) (schema : Z) (name : String) : J × List (String × J) :=
  let r := toJsonSchema conv cache schema name
  ((defs r.1 name).getD r.1, r.2)

/-- Run a sequence of `toJsonSchema` calls, threading the cache. -/
def runSchemaCalls {Z J : Type} (conv : Z → String → J)
    (cache : List (String × J)) : List (Z × String) → List (String × J)
  | [] => cache
  | (s, n) :: rest => runSchemaCalls conv (toJsonSchema conv cache s n).2 rest

theorem toJsonSchema_hit {Z J : Type} (conv : Z → String → J)
    (cache : List (String × J)) (s : Z) (n : String) (j : J)
    (h : cacheGet cache n = some j) :
    toJsonSchema conv cache s n = (j, cache) := by
  unfold toJsonSchema; simp [h]

theorem cacheGet_toJsonSchema_self {Z J : Type} (conv : Z → String → J)
    (cache : List (String × J)) (s : Z) (n : String) :
    cacheGet (toJsonSchema conv cache s n).2 n = some (toJsonSchema conv cache s n).1 := by
  unfold toJsonSchema
  cases h : cacheGet cache n with
  | some j => simp [h]
  | none => simp [cacheGet]

theorem cacheGet_toJsonSchema_preserved {Z J : Type} (conv : Z → String → J)
    (cache : List (String × J)) (s : Z) (n m : String) (j : J)
    (h : cacheGet cache m = some j) :
    cacheGet (toJsonSchema conv cache s n).2 m = some j := by
  unfold toJsonSchema
  cases hn : cacheGet cache n with
  | some j' => simpa [hn]
  | none =>
    simp only
    by_cases hmn : n = m
    · subst hmn; simp_all
    · simpa [cacheGet, hmn] using h

theorem cacheGet_runSchemaCalls_preserved {Z J : Type} (conv : Z → String → J)
    (cache : List (String × J)) (calls : List (Z × String)) (m : String) (j : J)
    (h : cacheGet cache m = some j) :
    cacheGet (runSchemaCalls conv cache calls) m = some j := by
  induction calls generalizing cache with
  | nil => simpa [runSchemaCalls] using h
  | cons c rest ih =>
    exact ih _ (cacheGet_toJsonSchema_preserved conv cache c.1 c.2 m j h)

/-- C10: after a call `toJsonSchema(s1, n)` on a cache with no entry for
`n`, that call returns `conv s1 n`, and any later `toJsonSchema(s2, n)` —
after arbitrary intervening calls — returns the cached schema generated
from `s1`, ignoring `s2` entirely; `getDefinition(s2, n)` likewise is
determined by that cached value. -/
theorem toJsonSchema_cache_keyed_by_name_only {Z J : Type}
    (conv : Z → String → J) (defs : J → String → Option J)
    (cache : List (String × J)) (s1 s2 : Z) (n : String)
    (calls : List (Z × String))
    (hfresh : cacheGet cache n = none) :
    (toJsonSchema conv cache s1 n).1 = conv s1 n ∧
    (toJsonSchema conv
        (runSchemaCalls conv (toJsonSchema conv cache s1 n).2 calls) s2 n).1 = conv s1 n ∧
    (getDefinition conv defs
        (runSchemaCalls conv (toJsonSchema conv cache s1 n).2 calls) s2 n).1 =
      (defs (conv s1 n) n).getD (conv s1 n) := by
  have h1 : (toJsonSchema conv cache s1 n).1 = conv s1 n := by
    unfold toJsonSchema; simp [hfresh]
  have hc : cacheGet (toJsonSchema conv cache s1 n).2 n = some (conv s1 n) := by
    have := cacheGet_toJsonSchema_self conv cache s1 n
    rwa [h1] at this
  have hc2 : cacheGet (runSchemaCalls conv (toJsonSchema conv cache s1 n).2 calls) n
      = some (conv s1 n) :=
    cacheGet_runSchemaCalls_preserved conv _ calls n _ hc
  have h2 := toJsonSchema_hit conv
    (runSchemaCalls conv (toJsonSchema conv cache s1 n).2 calls) s2 n _ hc2
  exact ⟨h1, by rw [h2], by simp [getDefinition, h2]⟩

/-- Concrete instance of the cache-by-name theorem: names map to numbers,
the first conversion of schema `1` under name `"A"` wins over the later
conversion request for schema `2`, across an intervening call. -/
theorem toJsonSchema_cache_keyed_by_name_only_witness :
    cacheGet ([] : List (String × Nat × String)) "A" = none ∧
    (toJsonSchema (fun (z : Nat) (n : String) => (z, n))
        (runSchemaCalls (fun z n => (z, n))
          (toJsonSchema (fun z n => (z, n)) [] 1 "A").2 [(5, "B")]) 2 "A").1 = (1, "A") :=
  ⟨by simp [cacheGet],
    (toJsonSchema_cache_keyed_by_name_only (fun z n => (z, n)) (fun _ _ => none)
      [] 1 2 "A" [(5, "B")] (by simp [cacheGet])).2.1⟩

/-! ## Scaffolding CLI (`src/bin/create-tigra.js`)

`toKebabCase` lowercases, replaces every maximal run of characters outside
`[a-z0-9]` by a single `-`, and strips one leading and one trailing `-`.
The filesystem is abstracted as the set (list) of existing paths; copying
the template is abstracted as creating the target directory. -/

/-- A character kept verbatim by the kebab-case regex `[^a-z0-9]`
(after lowercasing). -/
def isKebabKeep (c : Char) : Bool :=
  (('a' ≤ c) && (c ≤ 'z')) || (('0' ≤ c) && (c ≤ '9'))

/-- Replace each character outside `[a-z0-9]` by `-`
(first half of `replace(/[^a-z0-9]+/g, '-')`). -/
def dashSubst (l : List Char) : List Char :=
  l.map (fun c => if isKebabKeep c then c else '-')

/-- Collapse consecutive dashes to a single dash, so that each maximal run
replaced by `dashSubst` contributes one `-`
(second half of `replace(/[^a-z0-9]+/g, '-')`). -/
def squeezeDashes : List Char → List Char
  | [] => []
  | [c] => [c]
  | a :: b :: rest =>
    if a = '-' && b = '-' then squeezeDashes (b :: rest)
    else a :: squeezeDashes (b :: rest)

/-- Strip a leading dash (the `^-` alternative of `replace(/^-|-$/g, '')`). -/
def stripLeadDash : List Char → List Char
  | '-' :: rest => rest
  | l => l

/-- Strip a trailing dash (the `-$` alternative of `replace(/^-|-$/g, '')`). -/
def stripTrailDash (l : List Char) : List Char :=
  (stripLeadDash l.reverse).reverse

/-- Embeds `toKebabCase(str)` from `create-tigra.js`; `.toLowerCase()` is
applied per character. -/
def toKebabCase (s : String) : String :=
  String.mk
    (stripTrailDash (stripLeadDash (squeezeDashes (dashSubst (s.toList.map Char.toLower)))))

/-- Outcome of one CLI invocation. -/
inductive CliOutcome : Type
  | dirExistsError : CliOutcome
  | created : CliOutcome
deriving DecidableEq, Repr

/-- Embeds the body of `program.action` in `create-tigra.js`, after the
project name has been obtained (argument or prompt).  The filesystem is the
list of existing paths.  `targetDir = path.join(cwd, projectName)`; if it
exists the CLI prints an error and exits before any copy, otherwise the
template is copied into `targetDir` (abstracted as adding that path). -/
def runCli (fs : List String) (cwd rawName : String) : CliOutcome × List String :=
  let projectName := toKebabCase rawName
  let targetDir := cwd ++ "/" ++ projectName
  if targetDir ∈ fs then (.dirExistsError, fs)
  else (.created, targetDir :: fs)

/-- C9: if the directory named by the kebab-cased project name already
exists under the current working directory, the CLI exits with an error
and the filesystem is left exactly as it was — no template copying or
file writing occurs. -/
theorem runCli_existing_dir_error_no_write (fs : List String) (cwd rawName : String)
    (h : (cwd ++ "/" ++ toKebabCase rawName) ∈ fs) :
    runCli fs cwd rawName = (.dirExistsError, fs) := by
  simp [runCli, h]

/-- Concrete instance: `My App` kebab-cases to `my-app`; with
`/home/me/my-app` already present, the CLI errors out and writes nothing. -/
theorem runCli_existing_dir_error_no_write_witness :
    ("/home/me" ++ "/" ++ toKebabCase "My App") ∈ ["/home/me/my-app"] ∧
    runCli ["/home/me/my-app"] "/home/me" "My App" = (.dirExistsError, ["/home/me/my-app"]) :=
  ⟨by decide,
    runCli_existing_dir_error_no_write ["/home/me/my-app"] "/home/me" "My App" (by decide)⟩

/-! ## Roles, tokens and guard chains

The route tables below are embedded from `auth.routes.ts`,
`resources.routes.ts` and `admin.routes.ts`.  The guard implementations
(`authenticate.middleware`, `rbac.middleware`) are not part of this
repository snapshot and are modelled from the spec. -/

/-- Enumerated roles, totally ordered by privilege (spec §3, §4.4). -/
inductive Role : Type
  | USER : Role
  | ADMIN : Role
deriving DecidableEq, Repr

/-- Privilege level of a role (spec: higher privilege implies all lower
capabilities). -/
def Role.level : Role → Nat
  | .USER => 1
  | .ADMIN => 2

/-- Access-token claims (spec §3): subject and role; expiry is folded into
the token's `expired` flag below. -/
structure Claims : Type where
  subject : String
  role : Role
deriving DecidableEq, Repr

/-- Modelled from the spec: a presented access token, with the outcome of
the cryptographic signature check and the expiry comparison abstracted as
boolean fields (the crypto itself is external). -/
structure AccessToken : Type where
  signatureValid : Bool
  expired : Bool
  claims : Claims
deriving DecidableEq, Repr

/-- An incoming request, carrying at most one bearer token. -/
structure Request : Type where
  bearer : Option AccessToken
deriving DecidableEq, Repr

/-- The guard predicates attachable to a route's `preHandler` chain. -/
inductive Guard : Type
  | authenticate : Guard
  | requireAdmin : Guard
  | requireUser : Guard
  | requireAny : Guard
  | requireRole : Role → Guard
deriving DecidableEq, Repr

/-- Modelled from the spec: run one guard.  `authenticate` checks token
presence then validity (401 on failure) and attaches the claims; the role
guards deny with 401 when no claims are attached (deny-by-default) and
with 403 when the caller's role is below the requirement; `requireAny`
admits any authenticated caller. -/
def runGuard : Guard → Request → Option Claims → Except Nat (Option Claims)
  | .authenticate, req, _ =>
    match req.bearer with
    | none => .error 401
    | some t =>
      if t.signatureValid = false then .error 401
      else if t.expired = true then .error 401
      else .ok (some t.claims)
  | .requireAdmin, _, cl =>
    match cl with
    | none => .error 401
    | some c => if Role.level .ADMIN ≤ Role.level c.role then .ok (some c) else .error 403
  | .requireUser, _, cl =>
    match cl with
    | none => .error 401
    | some c => if Role.level .USER ≤ Role.level c.role then .ok (some c) else .error 403
  | .requireRole r, _, cl =>
    match cl with
    | none => .error 401
    | some c => if Role.level r ≤ Role.level c.role then .ok (some c) else .error 403
  | .requireAny, _, cl =>
    match cl with
    | none => .error 401
    | some c => .ok (some c)

/-- Run a `preHandler` guard chain in order; the first failure
short-circuits the rest (spec §4.4 evaluation order). -/
def runChain : List Guard → Request → Option Claims → Except Nat (Option Claims)
  | [], _, cl => .ok cl
  | g :: gs, req, cl =>
    match runGuard g req cl with
    | .error e => .error e
    | .ok cl' => runChain gs req cl'

/-- Per-route rate-limit configuration as written in the route files:
`{max, timeWindow}` with the window given as a duration string. -/
structure RateLimitCfg : Type where
  max : Nat
  timeWindow : String
deriving DecidableEq, Repr

/-- HTTP methods used by the embedded route tables. -/
inductive Method : Type
  | GET : Method
  | POST : Method
  | PATCH : Method
  | DELETE : Method
deriving DecidableEq, Repr

/-- One registered route: method, path, guard chain, handler name, and
optional per-route rate limit, exactly as registered in the route files. -/
structure Route : Type where
  method : Method
  path : String
  preHandler : List Guard
  handler : String
  rateLimit : Option RateLimitCfg
deriving DecidableEq, Repr

/-- Outcome of dispatching one request through a route's guard chain. -/
inductive Outcome : Type
  | denied : Nat → Outcome
  | handled : String → Outcome
deriving DecidableEq, Repr

/-- Dispatch a request: run the route's guard chain; on the first guard
failure respond with its status without executing the handler, otherwise
execute the handler. -/
def dispatch (r : Route) (req : Request) : Outcome :=
  match runChain r.preHandler req none with
  | .error e => .denied e
  | .ok _ => .handled r.handler

/-- Embeds `authRoutes` from `auth.routes.ts`: the five `/auth` routes
with their `config.rateLimit` and `preHandler` entries. -/
def authRoutesList : List Route :=
  [ ⟨.POST, "/register", [], "authController.register", some ⟨3, "1 hour"⟩⟩,
    ⟨.POST, "/login", [], "authController.login", some ⟨5, "15 minutes"⟩⟩,
    ⟨.POST, "/refresh", [], "authController.refreshTokens", some ⟨10, "15 minutes"⟩⟩,
    ⟨.POST, "/logout", [], "authController.logout", none⟩,
    ⟨.GET, "/me", [.authenticate], "authController.getMe", none⟩ ]

/-- Embeds `resourceRoutes` from `resources.routes.ts`: the six
`/resources` routes with their `config.rateLimit` and `preHandler`
entries. -/
def resourceRoutesList : List Route :=
  [ ⟨.GET, "/", [], "resourceController.listResources", some ⟨100, "15 minutes"⟩⟩,
    ⟨.GET, "/my", [.authenticate, .requireAny],
      "resourceController.getMyResources", some ⟨1000, "15 minutes"⟩⟩,
    ⟨.GET, "/:id", [], "resourceController.getResource", some ⟨100, "15 minutes"⟩⟩,
    ⟨.POST, "/", [.authenticate, .requireAny],
      "resourceController.createResource", some ⟨1000, "15 minutes"⟩⟩,
    ⟨.PATCH, "/:id", [.authenticate, .requireAny],
      "resourceController.updateResource", some ⟨1000, "15 minutes"⟩⟩,
    ⟨.DELETE, "/:id", [.authenticate, .requireAny],
      "resourceController.deleteResource", some ⟨1000, "15 minutes"⟩⟩ ]

/-- Embeds `adminRoutes` from `admin.routes.ts`: the six `/admin` routes,
each registered with `preHandler: [app.authenticate, app.requireAdmin()]`. -/
def adminRoutesList : List Route :=
  [ ⟨.GET, "/users", [.authenticate, .requireAdmin], "adminController.listAllUsers", none⟩,
    ⟨.GET, "/users/:id", [.authenticate, .requireAdmin], "adminController.getUserById", none⟩,
    ⟨.DELETE, "/users/:id", [.authenticate, .requireAdmin], "adminController.deleteUser", none⟩,
    ⟨.POST, "/users/:id/change-role", [.authenticate, .requireAdmin],
      "adminController.changeUserRole", none⟩,
    ⟨.POST, "/users/:id/verify-email", [.authenticate, .requireAdmin],
      "adminController.verifyUserEmail", none⟩,
    ⟨.GET, "/stats", [.authenticate, .requireAdmin], "adminController.getSystemStats", none⟩ ]

/-- C4: every admin route runs `authenticate` then `requireAdmin` before
its handler; a request with a valid, unexpired token whose role is USER is
denied 403 on every admin route (the handler never executes), the same
token passes every `requireAny`-guarded resource route, and a failing
guard short-circuits the rest of its chain. -/
theorem admin_routes_guard_chain_denies_user (t : AccessToken)
    (hv : t.signatureValid = true) (he : t.expired = false)
    (hr : t.claims.role = .USER) :
    (∀ r ∈ adminRoutesList, r.preHandler = [.authenticate, .requireAdmin]) ∧
    (∀ r ∈ adminRoutesList, dispatch r ⟨some t⟩ = .denied 403) ∧
    (∀ r ∈ resourceRoutesList, r.preHandler = [.authenticate, .requireAny] →
      dispatch r ⟨some t⟩ = .handled r.handler) ∧
    (∀ (g : Guard) (gs : List Guard) (req : Request) (cl : Option Claims) (e : Nat),
      runGuard g req cl = .error e → runChain (g :: gs) req cl = .error e) := by
  refine ⟨by decide, ?_, ?_, ?_⟩
  · intro r hmem
    fin_cases hmem <;>
      simp [dispatch, runChain, runGuard, hv, he, hr, Role.level]
  · intro r hmem hpre
    fin_cases hmem <;> simp_all [dispatch, runChain, runGuard, Role.level]
  · intro g gs req cl e hfail
    simp [runChain, hfail]

/-- Concrete instance: a valid USER token is denied 403 on the admin user
list and passes the authenticated resource-creation route. -/
theorem admin_routes_guard_chain_denies_user_witness :
    (⟨true, false, ⟨"u1", .USER⟩⟩ : AccessToken).signatureValid = true ∧
    (∀ r ∈ adminRoutesList,
      dispatch r ⟨some ⟨true, false, ⟨"u1", .USER⟩⟩⟩ = .denied 403) :=
  ⟨rfl, (admin_routes_guard_chain_denies_user ⟨true, false, ⟨"u1", .USER⟩⟩
    rfl rfl rfl).2.1⟩

/-- C8: the resource read routes `GET /` and `GET /:id` are the only
`/resources` routes registered without any guard and are served to a
request with no bearer token; the other four attach exactly
`[authenticate, requireAny]` and deny a bare request with 401. -/
theorem resource_read_routes_unauthenticated :
    (resourceRoutesList.filter (fun r => r.preHandler = [])).map
        (fun r => (r.method, r.path)) = [(.GET, "/"), (.GET, "/:id")] ∧
    (∀ r ∈ resourceRoutesList, r.preHandler = [] →
      dispatch r ⟨none⟩ = .handled r.handler) ∧
    (∀ r ∈ resourceRoutesList, r.preHandler ≠ [] →
      r.preHandler = [.authenticate, .requireAny] ∧ dispatch r ⟨none⟩ = .denied 401) := by
  refine ⟨by decide, ?_, ?_⟩
  · intro r hmem hpre
    fin_cases hmem <;> simp_all [dispatch, runChain, runGuard]
  · intro r hmem hpre
    fin_cases hmem <;> simp_all [dispatch, runChain, runGuard]

/-! ## Rate limiting

The per-route `{max, timeWindow}` configurations are embedded from the
route files above; the counter algorithm itself lives in the rate-limit
plugin, which is not part of this repository snapshot. -/

/-- Modelled from the spec: meaning in milliseconds of the duration
strings used by the route configurations (the plugin's duration parsing is
external). -/
def windowMs : String → Nat
  | "1 hour" => 3600000
  | "15 minutes" => 900000
  | _ => 0

/-- State of one rate-limit counter: hit count in the active window and
the window's start time. -/
structure LimiterState : Type where
  count : Nat
  windowStart : Nat
deriving DecidableEq, Repr

/-- Result of one rate-limited request. -/
inductive RLResult : Type
  | allowed : RLResult
  | rateLimited : Nat → RLResult
deriving DecidableEq, Repr

/-- Modelled from the spec: fixed-window counter with expiry equal to the
window — the count resets when the window has elapsed, each request
increments atomically, and the request fails with `RateLimited` (429) once
the count for the active window exceeds `max`. -/
def rateLimitHit (cfg : RateLimitCfg) (st : LimiterState) (now : Nat) :
    RLResult × LimiterState :=
  let st' : LimiterState :=
    if st.windowStart + windowMs cfg.timeWindow ≤ now then ⟨1, now⟩
    else ⟨st.count + 1, st.windowStart⟩
  if cfg.max < st'.count then (.rateLimited 429, st') else (.allowed, st')

/-- Run a sequence of requests at the given timestamps through one
counter, collecting each request's result. -/
def runRateLimited (cfg : RateLimitCfg) (st : LimiterState) : List Nat → List RLResult
  | [] => []
  | now :: rest =>
    let r := rateLimitHit cfg st now
    r.1 :: runRateLimited cfg r.2 rest

/-- C7: the auth route configurations are register 3 per 1-hour window,
login 5 per 15 minutes, refresh 10 per 15 minutes; under each
configuration, `max + 1` requests from one key inside a single window see
the first `max` allowed and the `(max+1)`-th rejected with 429; after the
window elapses a request is allowed again. -/
theorem auth_route_rate_limits :
    ((authRoutesList.find? (fun r => r.path = "/register")).map Route.rateLimit
      = some (some ⟨3, "1 hour"⟩) ∧
     (authRoutesList.find? (fun r => r.path = "/login")).map Route.rateLimit
      = some (some ⟨5, "15 minutes"⟩) ∧
     (authRoutesList.find? (fun r => r.path = "/refresh")).map Route.rateLimit
      = some (some ⟨10, "15 minutes"⟩)) ∧
    (windowMs "1 hour" = 3600000 ∧ windowMs "15 minutes" = 900000) ∧
    (runRateLimited ⟨3, "1 hour"⟩ ⟨0, 0⟩ (List.replicate 4 0)
      = List.replicate 3 .allowed ++ [.rateLimited 429] ∧
     runRateLimited ⟨5, "15 minutes"⟩ ⟨0, 0⟩ (List.replicate 6 0)
      = List.replicate 5 .allowed ++ [.rateLimited 429] ∧
     runRateLimited ⟨10, "15 minutes"⟩ ⟨0, 0⟩ (List.replicate 11 0)
      = List.replicate 10 .allowed ++ [.rateLimited 429]) ∧
    (runRateLimited ⟨5, "15 minutes"⟩ ⟨0, 0⟩ (List.replicate 6 0 ++ [900000])
      = List.replicate 5 .allowed ++ [.rateLimited 429, .allowed]) := by
  decide

/-! ## User payloads

The `GET /auth/me` 200-response schema property list is embedded from
`auth.routes.ts`; the controller-side projection of a stored user to the
response payload lives in the auth controller, which is not part of this
repository snapshot. -/

/-- A stored user row (spec §3), with the password hash among its
fields. -/
structure User : Type where
  id : String
  email : String
  name : Option String
  role : Role
  emailVerified : Bool
  createdAt : String
  updatedAt : String
  passwordHash : String
deriving DecidableEq, Repr

/-- Modelled from the spec: the user payload returned by registration,
login and `GET /auth/me` ("Returns created User (without hash)"), as a
field-name/value list. -/
def toPublicUser (u : User) : List (String × String) :=
  [ ("id", u.id), ("email", u.email), ("name", u.name.getD ""),
    ("role", reprStr u.role), ("emailVerified", reprStr u.emailVerified),
    ("createdAt", u.createdAt), ("updatedAt", u.updatedAt) ]

/-- Embeds the property names of the `data` object in the 200 response
schema of `GET /auth/me` in `auth.routes.ts` (lines 177–188). -/
def meResponseDataProperties : List String :=
  ["id", "email", "name", "role", "emailVerified", "createdAt", "updatedAt"]

/-- C5: no user payload handed back to a caller carries a `passwordHash`
field — the projected payload used by registration, login and
`GET /auth/me` omits it for every user, and the declared `/auth/me`
response schema lists no such property. -/
theorem user_payload_never_contains_password_hash (u : User) :
    "passwordHash" ∉ (toPublicUser u).map Prod.fst ∧
    "passwordHash" ∉ meResponseDataProperties := by
  constructor
  · simp [toPublicUser]
  · decide

/-! ## Credential validation

The login service is not part of this repository snapshot; it is modelled
from spec §4.1/§7.  The slow hash comparison is abstracted as the
predicate parameter `checkHash`. -/

/-- The error payload shape of the response envelope:
`{status, error: {code, message}}`. -/
structure ErrorShape : Type where
  status : Nat
  code : String
  message : String
deriving DecidableEq, Repr

/-- Modelled from the spec: the uniform `InvalidCredentials` error (401,
one message regardless of which factor failed). -/
def invalidCredentialsError : ErrorShape :=
  ⟨401, "INVALID_CREDENTIALS", "Invalid credentials"⟩

/-- Result of a login attempt: the logged-in user or an error shape. -/
inductive LoginResult : Type
  | ok : User → LoginResult
  | err : ErrorShape → LoginResult
deriving DecidableEq, Repr

/-- Case-insensitive email lookup (spec: email unique,
case-insensitive). -/
def findByEmail (users : List User) (email : String) : Option User :=
  users.find? (fun u => u.email.toList.map Char.toLower = email.toList.map Char.toLower)

/-- Modelled from the spec: `login(email, password)` fails with
`InvalidCredentials` if the email is absent or the hash comparison fails,
without revealing which; `checkHash password storedHash` abstracts the
constant-time hash comparison. -/
def login (checkHash : String → String → Bool) (users : List User)
    (email password : String) : LoginResult :=
  match findByEmail users email with
  | none => .err invalidCredentialsError
  | some u =>
    if checkHash password u.passwordHash then .ok u
    else .err invalidCredentialsError

/-- C6: a login attempt with an unknown email and a login attempt with a
known email but failing password comparison return literally the same
`InvalidCredentials` error result — same code, message, status and
shape. -/
theorem login_failures_indistinguishable (checkHash : String → String → Bool)
    (users : List User) (e1 p1 e2 p2 : String) (u : User)
    (h1 : findByEmail users e1 = none)
    (h2 : findByEmail users e2 = some u)
    (h3 : checkHash p2 u.passwordHash = false) :
    login checkHash users e1 p1 = .err invalidCredentialsError ∧
    login checkHash users e2 p2 = .err invalidCredentialsError ∧
    login checkHash users e1 p1 = login checkHash users e2 p2 := by
  unfold login
  rw [h1, h2]
  simp [h3]

/-- Concrete instance: one stored user `a@x.com`; a wrong-email attempt
and a wrong-password attempt produce the identical error result. -/
theorem login_failures_indistinguishable_witness :
    login (fun p h => p = h)
        [⟨"1", "a@x.com", none, .USER, true, "t0", "t0", "hash1"⟩] "b@x.com" "pw"
      = login (fun p h => p = h)
        [⟨"1", "a@x.com", none, .USER, true, "t0", "t0", "hash1"⟩] "a@x.com" "wrong" :=
  (login_failures_indistinguishable (fun p h => p = h)
    [⟨"1", "a@x.com", none, .USER, true, "t0", "t0", "hash1"⟩]
    "b@x.com" "pw" "a@x.com" "wrong"
    ⟨"1", "a@x.com", none, .USER, true, "t0", "t0", "hash1"⟩
    (by decide) (by decide) (by decide)).2.2

/-! ## Refresh-token rotation protocol

The rotation service and token store are not part of this repository
snapshot; they are modelled from spec §3/§4.3.  Raw tokens are naturals;
the one-way token hash is abstracted as the function parameter `hashFn`.
The spec's atomicity requirement makes each `refresh`/`logout` call one
indivisible store transition, so concurrent calls are modelled by their
serializations. -/

/-- State of one refresh-token chain link (spec §4.3); expiry is decided
from `expiresAt` against the clock rather than stored. -/
inductive TokenState : Type
  | ACTIVE : TokenState
  | ROTATED : TokenState
  | REVOKED : TokenState
deriving DecidableEq, Repr

/-- A stored refresh-token record (spec §3 `RefreshTokenRecord`). -/
structure RefreshRecord : Type where
  id : Nat
  userId : Nat
  tokenHash : Nat
  expiresAt : Nat
  state : TokenState
  replacedBy : Option Nat
deriving DecidableEq, Repr

/-- The refresh-token store: the records plus the next fresh record id. -/
structure Store : Type where
  records : List RefreshRecord
  nextId : Nat
deriving DecidableEq, Repr

/-- The pair handed back on a successful rotation; the access token is
identified by its subject, the refresh token by its raw value. -/
structure TokenPair : Type where
  userId : Nat
  refreshRaw : Nat
deriving DecidableEq, Repr

/-- Result of one `refresh` call. -/
inductive RefreshOutcome : Type
  | success : TokenPair → RefreshOutcome
  | tokenInvalid : RefreshOutcome
  | tokenExpired : RefreshOutcome
  | reuseDetected : RefreshOutcome
deriving DecidableEq, Repr

/-- Look up the record whose stored hash matches the presented hash. -/
def findByHash (recs : List RefreshRecord) (h : Nat) : Option RefreshRecord :=
  recs.find? (fun r => r.tokenHash = h)

/-- Modelled from the spec: full session invalidation — a store-side bulk
update keyed by user that revokes every record belonging to `uid`. -/
def revokeAllForUser (uid : Nat) (recs : List RefreshRecord) : List RefreshRecord :=
  recs.map (fun r => if r.userId = uid then { r with state := .REVOKED } else r)

/-- Mark the record `rid` as rotated, pointing at its successor
`newId`. -/
def rotateRecord (rid newId : Nat) (recs : List RefreshRecord) : List RefreshRecord :=
  recs.map (fun r =>
    if r.id = rid then { r with state := .ROTATED, replacedBy := some newId } else r)

/-- Mark the record `rid` as revoked. -/
def revokeRecord (rid : Nat) (recs : List RefreshRecord) : List RefreshRecord :=
  recs.map (fun r => if r.id = rid then { r with state := .REVOKED } else r)

/-- Refresh-token lifetime added to newly minted records (spec: e.g. 7
days, in milliseconds). -/
def refreshTokenTtl : Nat := 604800000

/-- Modelled from the spec: `refresh(rawToken)` §4.3 steps 1–5 — hash and
look up; `TokenInvalid` if absent; `TokenExpired` if past `expiresAt`
(strict `now < exp`); `TokenReuseDetected` if already `ROTATED`/`REVOKED`,
revoking every record of that user; otherwise atomically rotate the
record, create the successor `ACTIVE` record for the freshly minted raw
token `newRaw`, and return the new pair. -/
def refresh (hashFn : Nat → Nat) (now newRaw : Nat) (st : Store) (raw : Nat) :
    RefreshOutcome × Store :=
  match findByHash st.records (hashFn raw) with
  | none => (.tokenInvalid, st)
  | some r =>
    if r.expiresAt ≤ now then (.tokenExpired, st)
    else
      match r.state with
      | .ROTATED => (.reuseDetected, ⟨revokeAllForUser r.userId st.records, st.nextId⟩)
      | .REVOKED => (.reuseDetected, ⟨revokeAllForUser r.userId st.records, st.nextId⟩)
      | .ACTIVE =>
        (.success ⟨r.userId, newRaw⟩,
          ⟨rotateRecord r.id st.nextId st.records ++
            [⟨st.nextId, r.userId, hashFn newRaw, now + refreshTokenTtl, .ACTIVE, none⟩],
            st.nextId + 1⟩)

/-- Modelled from the spec: `logout(rawToken)` marks the matching record
`REVOKED`; an unknown token is a no-op.  The call always returns the
success envelope with null data, represented as `none` (no error). -/
def logout (hashFn : Nat → Nat) (st : Store) (raw : Nat) : Option ErrorShape × Store :=
  match findByHash st.records (hashFn raw) with
  | none => (none, st)
  | some r => (none, ⟨revokeRecord r.id st.records, st.nextId⟩)

/-- The two serializations of two concurrent `refresh` calls presenting
the same raw token (spec §4.3 atomicity): run one call, then the other
against the resulting store; `n1`, `n2` are the raw tokens each call would
mint. -/
def refreshTwice (hashFn : Nat → Nat) (now n1 n2 : Nat) (st : Store) (raw : Nat) :
    RefreshOutcome × RefreshOutcome × Store :=
  let a := refresh hashFn now n1 st raw
  let b := refresh hashFn now n2 a.2 raw
  (a.1, b.1, b.2)

/-- Whether a refresh outcome is a success. -/
def RefreshOutcome.isSuccess : RefreshOutcome → Bool
  | .success _ => true
  | _ => false

theorem mem_of_findByHash {recs : List RefreshRecord} {h : Nat} {r : RefreshRecord}
    (hf : findByHash recs h = some r) : r ∈ recs :=
  List.mem_of_find?_eq_some hf

theorem revokeAllForUser_state (uid : Nat) (recs : List RefreshRecord) :
    ∀ x ∈ revokeAllForUser uid recs, x.userId = uid → x.state = .REVOKED := by
  intro x hx hxu
  rcases List.mem_map.1 hx with ⟨y, hy, rfl⟩
  by_cases h : y.userId = uid
  · simp [h]
  · simp only [if_neg h] at hxu ⊢
    exact absurd hxu h

/-- C1: a refresh call that finds an unexpired record already `ROTATED` or
`REVOKED` returns `TokenReuseDetected`, every record of that user in the
resulting store is revoked, and any subsequent refresh presenting a token
of that user — in particular the successor token of the rotated record —
cannot succeed. -/
theorem refresh_reuse_detected_revokes_all (hashFn : Nat → Nat)
    (now newRaw : Nat) (st : Store) (raw : Nat) (r : RefreshRecord)
    (hfind : findByHash st.records (hashFn raw) = some r)
    (hexp : now < r.expiresAt)
    (hstate : r.state = .ROTATED ∨ r.state = .REVOKED) :
    (refresh hashFn now newRaw st raw).1 = .reuseDetected ∧
    (∀ x ∈ (refresh hashFn now newRaw st raw).2.records,
      x.userId = r.userId → x.state = .REVOKED) ∧
    (∀ (now2 new2 raw2 : Nat) (r2 : RefreshRecord),
      findByHash (refresh hashFn now newRaw st raw).2.records (hashFn raw2) = some r2 →
      r2.userId = r.userId →
      ∀ p, (refresh hashFn now2 new2 (refresh hashFn now newRaw st raw).2 raw2).1
        ≠ .success p) := by
  have hne : ¬ r.expiresAt ≤ now := Nat.not_le.mpr hexp
  have hres : refresh hashFn now newRaw st raw
      = (.reuseDetected, ⟨revokeAllForUser r.userId st.records, st.nextId⟩) := by
    unfold refresh
    rw [hfind]
    rcases hstate with h | h <;> simp [hne, h]
  have hres2 : (refresh hashFn now newRaw st raw).2
      = ⟨revokeAllForUser r.userId st.records, st.nextId⟩ := by rw [hres]
  refine ⟨by rw [hres], ?_, ?_⟩
  · rw [hres2]
    exact revokeAllForUser_state r.userId st.records
  · intro now2 new2 raw2 r2 hfind2 huser p
    rw [hres2] at hfind2 ⊢
    have hrev : r2.state = .REVOKED :=
      revokeAllForUser_state r.userId st.records r2 (mem_of_findByHash hfind2) huser
    unfold refresh
    rw [hfind2]
    by_cases h2 : r2.expiresAt ≤ now2
    · simp [h2]
    · simp [h2, hrev]

/-- Concrete instance of reuse detection: presenting the already-rotated
token `10` of user `7` returns `TokenReuseDetected` and the follow-up
refresh with the successor token `20` fails. -/
theorem refresh_reuse_detected_revokes_all_witness :
    (refresh id 0 99
      ⟨[⟨1, 7, 10, 100, .ROTATED, some 2⟩, ⟨2, 7, 20, 100, .ACTIVE, none⟩], 3⟩ 10).1
      = .reuseDetected ∧
    ∀ p, (refresh id 5 98
      (refresh id 0 99
        ⟨[⟨1, 7, 10, 100, .ROTATED, some 2⟩, ⟨2, 7, 20, 100, .ACTIVE, none⟩], 3⟩ 10).2
      20).1 ≠ .success p := by
  have h := refresh_reuse_detected_revokes_all id 0 99
    ⟨[⟨1, 7, 10, 100, .ROTATED, some 2⟩, ⟨2, 7, 20, 100, .ACTIVE, none⟩], 3⟩ 10
    ⟨1, 7, 10, 100, .ROTATED, some 2⟩ (by decide) (by decide) (Or.inl rfl)
  exact ⟨h.1, h.2.2 5 98 20 ⟨2, 7, 20, 100, .REVOKED, none⟩ (by decide) (by decide)⟩

theorem findByHash_map (f : RefreshRecord → RefreshRecord)
    (hf : ∀ x, (f x).tokenHash = x.tokenHash) (recs : List RefreshRecord) (h : Nat) :
    findByHash (recs.map f) h = (findByHash recs h).map f := by
  unfold findByHash
  rw [List.find?_map]
  have hp : ((fun r : RefreshRecord => decide (r.tokenHash = h)) ∘ f)
      = fun r : RefreshRecord => decide (r.tokenHash = h) := by
    funext x
    simp [Function.comp, hf x]
  rw [hp]

theorem findByHash_append (l1 l2 : List RefreshRecord) (h : Nat) :
    findByHash (l1 ++ l2) h = (findByHash l1 h).or (findByHash l2 h) := by
  unfold findByHash
  exact List.find?_append

theorem refresh_second_call_never_succeeds (hashFn : Nat → Nat)
    (now n1 n2 : Nat) (st : Store) (raw : Nat) :
    ∀ p, (refresh hashFn now n2 (refresh hashFn now n1 st raw).2 raw).1 ≠ .success p := by
  intro p
  rcases hf : findByHash st.records (hashFn raw) with _ | r
  · have hst1 : refresh hashFn now n1 st raw = (.tokenInvalid, st) := by
      unfold refresh; rw [hf]
    rw [hst1]
    unfold refresh
    rw [hf]
    simp
  · by_cases hexp : r.expiresAt ≤ now
    · have hst1 : refresh hashFn now n1 st raw = (.tokenExpired, st) := by
        unfold refresh; rw [hf]; simp [hexp]
      rw [hst1]
      unfold refresh
      rw [hf]
      simp [hexp]
    · have hrevoke : findByHash (revokeAllForUser r.userId st.records) (hashFn raw)
          = some { r with state := .REVOKED } := by
        unfold revokeAllForUser
        rw [findByHash_map _ (by intro x; by_cases hx : x.userId = r.userId <;> simp [hx]),
          hf]
        simp
      cases hs : r.state with
      | ROTATED =>
        have hst1 : refresh hashFn now n1 st raw
            = (.reuseDetected, ⟨revokeAllForUser r.userId st.records, st.nextId⟩) := by
          unfold refresh; rw [hf]; simp [hexp, hs]
        rw [hst1]
        unfold refresh
        rw [show findByHash (Store.mk (revokeAllForUser r.userId st.records) st.nextId).records
            (hashFn raw) = some { r with state := .REVOKED } from hrevoke]
        simp [hexp]
      | REVOKED =>
        have hst1 : refresh hashFn now n1 st raw
            = (.reuseDetected, ⟨revokeAllForUser r.userId st.records, st.nextId⟩) := by
          unfold refresh; rw [hf]; simp [hexp, hs]
        rw [hst1]
        unfold refresh
        rw [show findByHash (Store.mk (revokeAllForUser r.userId st.records) st.nextId).records
            (hashFn raw) = some { r with state := .REVOKED } from hrevoke]
        simp [hexp]
      | ACTIVE =>
        have hst1 : refresh hashFn now n1 st raw
            = (.success ⟨r.userId, n1⟩,
              ⟨rotateRecord r.id st.nextId st.records ++
                [⟨st.nextId, r.userId, hashFn n1, now + refreshTokenTtl, .ACTIVE, none⟩],
                st.nextId + 1⟩) := by
          unfold refresh; rw [hf]; simp [hexp, hs]
        have hrot : findByHash (rotateRecord r.id st.nextId st.records) (hashFn raw)
            = some { r with state := .ROTATED, replacedBy := some st.nextId } := by
          unfold rotateRecord
          rw [findByHash_map _ (by intro x; by_cases hx : x.id = r.id <;> simp [hx]), hf]
          simp
        have hfind2 : findByHash (rotateRecord r.id st.nextId st.records ++
            [⟨st.nextId, r.userId, hashFn n1, now + refreshTokenTtl, .ACTIVE, none⟩])
            (hashFn raw)
            = some { r with state := .ROTATED, replacedBy := some st.nextId } := by
          rw [findByHash_append, hrot]
          rfl
        rw [hst1]
        unfold refresh
        rw [show findByHash (Store.mk (rotateRecord r.id st.nextId st.records ++
            [⟨st.nextId, r.userId, hashFn n1, now + refreshTokenTtl, .ACTIVE, none⟩])
            (st.nextId + 1)).records (hashFn raw)
            = some { r with state := .ROTATED, replacedBy := some st.nextId } from hfind2]
        simp [hexp]

/-- C2 counterexample: against a store holding no record for the
presented token, both serializations of two concurrent refresh calls fail
with `TokenInvalid` — it is not the case that exactly one of the two calls
succeeds. -/
theorem refresh_concurrent_no_success_counterexample :
    (refreshTwice id 0 1 2 ⟨[], 0⟩ 5).1 = .tokenInvalid ∧
    (refreshTwice id 0 1 2 ⟨[], 0⟩ 5).2.1 = .tokenInvalid ∧
    ((refreshTwice id 0 1 2 ⟨[], 0⟩ 5).1.isSuccess
      || (refreshTwice id 0 1 2 ⟨[], 0⟩ 5).2.1.isSuccess) = false := by
  decide

/-- C2 (amended): in either serialization of two concurrent refresh calls
presenting the same raw token, at most one call succeeds — never both —
and when the presented token's record is `ACTIVE` and unexpired, exactly
one succeeds and the other fails with `TokenReuseDetected`. -/
theorem refresh_concurrent_at_most_one_success (hashFn : Nat → Nat)
    (now n1 n2 : Nat) (st : Store) (raw : Nat) :
    (¬((refreshTwice hashFn now n1 n2 st raw).1.isSuccess = true ∧
       (refreshTwice hashFn now n1 n2 st raw).2.1.isSuccess = true)) ∧
    (∀ r : RefreshRecord, findByHash st.records (hashFn raw) = some r →
      r.state = .ACTIVE → now < r.expiresAt →
      (refreshTwice hashFn now n1 n2 st raw).1 = .success ⟨r.userId, n1⟩ ∧
      (refreshTwice hashFn now n1 n2 st raw).2.1 = .reuseDetected) := by
  constructor
  · rintro ⟨-, hsnd⟩
    have hne := refresh_second_call_never_succeeds hashFn now n1 n2 st raw
    rcases h2 : (refreshTwice hashFn now n1 n2 st raw).2.1 with p | _ | _ | _
    · exact hne p (by simpa [refreshTwice] using h2)
    all_goals rw [h2] at hsnd; simp [RefreshOutcome.isSuccess] at hsnd
  · intro r hf hs hexp
    have hne : ¬ r.expiresAt ≤ now := Nat.not_le.mpr hexp
    have hfst : refresh hashFn now n1 st raw
        = (.success ⟨r.userId, n1⟩,
          ⟨rotateRecord r.id st.nextId st.records ++
            [⟨st.nextId, r.userId, hashFn n1, now + refreshTokenTtl, .ACTIVE, none⟩],
            st.nextId + 1⟩) := by
      unfold refresh; rw [hf]; simp [hne, hs]
    have hrot : findByHash (rotateRecord r.id st.nextId st.records) (hashFn raw)
        = some { r with state := .ROTATED, replacedBy := some st.nextId } := by
      unfold rotateRecord
      rw [findByHash_map _ (by intro x; by_cases hx : x.id = r.id <;> simp [hx]), hf]
      simp
    have hfind2 : findByHash (rotateRecord r.id st.nextId st.records ++
        [⟨st.nextId, r.userId, hashFn n1, now + refreshTokenTtl, .ACTIVE, none⟩])
        (hashFn raw)
        = some { r with state := .ROTATED, replacedBy := some st.nextId } := by
      rw [findByHash_append, hrot]
      rfl
    constructor
    · simp [refreshTwice, hfst]
    · show (refresh hashFn now n2 (refresh hashFn now n1 st raw).2 raw).1 = .reuseDetected
      rw [hfst]
      unfold refresh
      rw [show findByHash (Store.mk (rotateRecord r.id st.nextId st.records ++
          [⟨st.nextId, r.userId, hashFn n1, now + refreshTokenTtl, .ACTIVE, none⟩])
          (st.nextId + 1)).records (hashFn raw)
          = some { r with state := .ROTATED, replacedBy := some st.nextId } from hfind2]
      simp [hne]

/-- Concrete instance of the amended statement: a single active record,
two refresh calls with its token — the first serialization step succeeds,
the second fails with `TokenReuseDetected`. -/
theorem refresh_concurrent_at_most_one_success_witness :
    (refreshTwice id 0 101 102 ⟨[⟨1, 7, 10, 100, .ACTIVE, none⟩], 2⟩ 10).1
      = .success ⟨7, 101⟩ ∧
    (refreshTwice id 0 101 102 ⟨[⟨1, 7, 10, 100, .ACTIVE, none⟩], 2⟩ 10).2.1
      = .reuseDetected :=
  (refresh_concurrent_at_most_one_success id 0 101 102
    ⟨[⟨1, 7, 10, 100, .ACTIVE, none⟩], 2⟩ 10).2
    ⟨1, 7, 10, 100, .ACTIVE, none⟩ (by decide) rfl (by decide)

theorem revokeRecord_idem (rid : Nat) (recs : List RefreshRecord) :
    revokeRecord rid (revokeRecord rid recs) = revokeRecord rid recs := by
  unfold revokeRecord
  rw [List.map_map]
  congr 1
  funext x
  by_cases hx : x.id = rid <;> simp [Function.comp, hx]

/-- C3: `logout` always returns the success result with null data; it is
idempotent (a second logout with the same token changes nothing); an
unknown token leaves the store untouched; logging out an already-revoked
record (in a store with distinct record ids) is a no-op; and the first
logout of a matched record changes nothing but that record's state, which
becomes `REVOKED`. -/
theorem logout_idempotent_success (hashFn : Nat → Nat) (st : Store) (raw : Nat) :
    (logout hashFn st raw).1 = none ∧
    logout hashFn (logout hashFn st raw).2 raw = logout hashFn st raw ∧
    (findByHash st.records (hashFn raw) = none → (logout hashFn st raw).2 = st) ∧
    (∀ r : RefreshRecord, findByHash st.records (hashFn raw) = some r →
      (st.records.map RefreshRecord.id).Nodup → r.state = .REVOKED →
      (logout hashFn st raw).2 = st) ∧
    (∀ r : RefreshRecord, findByHash st.records (hashFn raw) = some r →
      (logout hashFn st raw).2.records
        = st.records.map
            (fun x => if x.id = r.id then { x with state := .REVOKED } else x) ∧
      (logout hashFn st raw).2.nextId = st.nextId ∧
      ∀ x ∈ st.records, x.id ≠ r.id → x ∈ (logout hashFn st raw).2.records) := by
  rcases hf : findByHash st.records (hashFn raw) with _ | r
  · have h1 : logout hashFn st raw = (none, st) := by
      unfold logout; rw [hf]
    refine ⟨by rw [h1], by rw [h1, h1], fun _ => by rw [h1], ?_, ?_⟩
    · intro r hr
      exact absurd hr.symm (by simp)
    · intro r hr
      exact absurd hr.symm (by simp)
  · have h1 : logout hashFn st raw = (none, ⟨revokeRecord r.id st.records, st.nextId⟩) := by
      unfold logout; rw [hf]
    have hfind2 : findByHash (revokeRecord r.id st.records) (hashFn raw)
        = some { r with state := .REVOKED } := by
      unfold revokeRecord
      rw [findByHash_map _ (by intro x; by_cases hx : x.id = r.id <;> simp [hx]), hf]
      simp
    have h2 : logout hashFn (logout hashFn st raw).2 raw = logout hashFn st raw := by
      rw [h1]
      unfold logout
      rw [show findByHash (Store.mk (revokeRecord r.id st.records) st.nextId).records
          (hashFn raw) = some { r with state := .REVOKED } from hfind2]
      simp [revokeRecord_idem]
    refine ⟨by rw [h1], h2, ?_, ?_, ?_⟩
    · intro hnone
      exact absurd hnone (by simp)
    · intro r' hr' hnodup hrev
      have hrr : r = r' := by injection hr'
      subst hrr
      have hmap : revokeRecord r.id st.records = st.records := by
        unfold revokeRecord
        have hpt : ∀ x ∈ st.records,
            (if x.id = r.id then { x with state := .REVOKED } else x) = (fun y => y) x := by
          intro x hx
          by_cases hid : x.id = r.id
          · have hxr : x = r :=
              List.inj_on_of_nodup_map hnodup hx (mem_of_findByHash hf) hid
            subst hxr
            rcases x with ⟨a, b, c, d, s, e⟩
            simp_all
          · simp [hid]
        rw [List.map_congr_left hpt, List.map_id']
      rw [h1]
      show Store.mk (revokeRecord r.id st.records) st.nextId = st
      rw [hmap]
    · intro r' hr'
      have hrr : r = r' := by injection hr'
      subst hrr
      refine ⟨by rw [h1]; rfl, by rw [h1], ?_⟩
      intro x hx hid
      rw [h1]
      exact List.mem_map.2 ⟨x, hx, by simp [hid]⟩

end CreateTigra
